import Mathlib

/-!
Shallow embedding of the FEN decoder in `src/main.rs` of `en_peasant`.

Characters are modeled as their Unicode scalar values (`Nat`); Rust
`String`s become `List Nat`.  Rust code that can panic (`unwrap`,
`assert!`, `try_into().unwrap()`) is modeled in the `Option` monad,
`none` standing for a panic; the observable outcome of `Board::from_fen`
is a `FenResult` distinguishing a panic, the `Ok` variant and the `Err`
variant of the declared `Result<Board, &'static str>` type.
-/

namespace EnPeasant

/-- Rust `enum Color { White, Black }`. The spec calls White "First"
and Black "Second". -/
inductive Color where
  | white
  | black
deriving DecidableEq, Repr

/-- Rust `enum Piece`: a piece kind carrying its color. -/
inductive Piece where
  | rook (color : Color)
  | queen (color : Color)
  | king (color : Color)
  | pawn (color : Color)
  | bishop (color : Color)
  | knight (color : Color)
deriving DecidableEq, Repr

/-- Unicode scalar values of the characters of a string literal
(helper for stating theorems about concrete inputs). -/
def strCodes (s : String) : List Nat :=
  s.data.map Char.toNat

/-- Rust `char::is_ascii_uppercase`: the range `'A'..='Z'` (65..=90). -/
def isAsciiUppercase (c : Nat) : Bool :=
  65 ≤ c && c ≤ 90

/-- Rust `char::is_ascii_digit`: the range `'0'..='9'` (48..=57). -/
def isAsciiDigit (c : Nat) : Bool :=
  48 ≤ c && c ≤ 57

/-- Rust `char::is_ascii_alphabetic`: `'A'..='Z'` or `'a'..='z'`. -/
def isAsciiAlphabetic (c : Nat) : Bool :=
  (65 ≤ c && c ≤ 90) || (97 ≤ c && c ≤ 122)

/-- Rust `char::to_ascii_lowercase`: ASCII uppercase letters are mapped
down by 32, every other character is returned unchanged. -/
def toAsciiLowercase (c : Nat) : Nat :=
  if isAsciiUppercase c then c + 32 else c

/-- Rust `char::to_digit(10)` restricted to ASCII digits (the only

context in which the source calls it): the numeric value of the digit. -/
def toDigit10 (c : Nat) : Nat :=
  c - 48

/-- `Piece::from_char`: the color is White iff the character is ASCII
uppercase; the kind is matched on the lowercased character
(`p`/`r`/`n`/`b`/`q`/`k`), anything else giving `none`. -/
def Piece.fromChar (c : Nat) : Option Piece :=
  let color := if isAsciiUppercase c then Color.white else Color.black
  let lc := toAsciiLowercase c
  if lc = 112 then some (.pawn color)        -- 'p'
  else if lc = 114 then some (.rook color)   -- 'r'
  else if lc = 110 then some (.knight color) -- 'n'
  else if lc = 98 then some (.bishop color)  -- 'b'
  else if lc = 113 then some (.queen color)  -- 'q'
  else if lc = 107 then some (.king color)   -- 'k'
  else none

/-- A square is empty or holds one piece (Rust `Option<Piece>`). -/
abbrev Square := Option Piece

/-- The board: Rust `struct Board { content: [[Option<Piece>; 8]; 8],
metadata: String }`.  The fixed array lengths are enforced dynamically
by the `try_into().unwrap()` conversions in `from_fen`, so the model
carries plain lists. -/
structure Board where
  content : List (List Square)
  metadata : List Nat
deriving DecidableEq, Repr

/-- The observable outcome of `Board::from_fen`: a panic, or one of the
two variants of the declared `Result<Board, &'static str>`. -/
inductive FenResult where
  | panicked
  | ok (b : Board)
  | err (e : List Nat)
deriving DecidableEq, Repr

/-- Whether a `FenResult` is the `Err` variant of the declared result
type (as opposed to `Ok` or a panic). -/
def FenResult.isErr : FenResult → Bool
  | .err _ => true
  | _ => false

/-- Rust `str::split_once(sep)`: `some (before, after)` around the first
occurrence of `sep`, `none` when `sep` does not occur. -/
def splitOnce (sep : Nat) : List Nat → Option (List Nat × List Nat)
  | [] => none
  | c :: cs =>
    if c = sep then
      some ([], cs)
    else
      match splitOnce sep cs with
      | none => none
      | some (l, r) => some (c :: l, r)

/-- Rust `str::split(sep)` collected to a list: the (possibly empty)
segments between occurrences of `sep`; the empty string yields one
empty segment. -/
def splitAll (sep : Nat) : List Nat → List (List Nat)
  | [] => [[]]
  | c :: cs =>
    if c = sep then
      [] :: splitAll sep cs
    else
      match splitAll sep cs with
      | [] => [[c]]
      | r :: rs => (c :: r) :: rs

/-- One step of the per-rank scan in `from_fen`'s `for_each` closure:
an ASCII digit is asserted to be in `1..=8` (`none` models the
`assert!` panic) and appends that many empty squares; an ASCII
alphabetic character pushes `Piece::from_char c` (an `Option<Piece>`,
so an unrecognized letter pushes an empty square); any other character
is ignored. -/
def scanRowStep (acc : List Square) (c : Nat) : Option (List Square) :=
  if isAsciiDigit c then
    let digit := toDigit10 c
    if digit > 0 ∧ digit ≤ 8 then
      some (acc ++ List.replicate digit none)
    else
      none
  else if isAsciiAlphabetic c then
    some (acc ++ [Piece.fromChar c])
  else
    some acc

/-- The scan of one rank descriptor: fold `scanRowStep` over its
characters starting from the empty row. -/
def scanRow (cs : List Nat) : Option (List Square) :=
  cs.foldlM scanRowStep []

/-- Rust `Vec<Option<Piece>>::try_into::<[Option<Piece>; 8]>().unwrap()`:
succeeds exactly when the list has length 8, otherwise panics (`none`). -/
def toRow (l : List Square) : Option (List Square) :=
  if l.length = 8 then some l else none

/-- `Board::from_fen`: split once on the first space (panicking via
`unwrap` when there is none), split the placement field on `/`, scan
each rank descriptor and convert it to a length-8 row (panicking on a
bad digit or a wrong length), then convert the row list to a length-8
board (panicking on a wrong rank count) and return `Ok`. -/
def from_fen (pgn : List Nat) : FenResult :=
  match splitOnce 32 pgn with        -- ' '
  | none => .panicked
  | some (rowsString, metadata) =>
    let rows := splitAll 47 rowsString  -- '/'
    match rows.mapM (fun row => (scanRow row).bind toRow) with
    | none => .panicked
    | some rowArray =>
      if rowArray.length = 8 then
        .ok ⟨rowArray, metadata⟩
      else
        .panicked

/-- The `INITIAL_FEN` constant of the source. -/
def INITIAL_FEN : String :=
  "rnbqkbnr/pppppppp/8/8/8/8/PPPPPPPP/RNBQKBNR w KQkq - 0 1"

/-- `Board::new`: decode `INITIAL_FEN` (the source then unwraps the
result; the theorems show the result is `ok`, so the unwrap succeeds). -/
def Board.new : FenResult :=
  from_fen (strCodes INITIAL_FEN)

/-- The twelve recognized piece characters `PpRrNnBbQqKk`. -/
def pieceChars : List Nat :=
  strCodes "PpRrNnBbQqKk"

lemma splitOnce_eq_none_of_not_mem (sep : Nat) (l : List Nat) (h : sep ∉ l) :
    splitOnce sep l = none := by
  induction l with
  | nil => rfl
  | cons c cs ih =>
    simp only [List.mem_cons, not_or] at h
    simp only [splitOnce]
    rw [if_neg (fun hc => h.1 hc.symm), ih h.2]

/-- C10: `Board::from_fen` never returns the `Err` variant of its
declared `Result` type: every outcome is a panic or `Ok`, since the
source constructs no `Err` value anywhere. -/
theorem from_fen_never_err (pgn : List Nat) : (from_fen pgn).isErr = false := by
  unfold from_fen
  rcases hsplit : splitOnce 32 pgn with _ | ⟨rowsString, metadata⟩
  · rfl
  · dsimp only
    rcases hmap : (splitAll 47 rowsString).mapM (fun row => (scanRow row).bind toRow) with
      _ | rowArray
    · rfl
    · dsimp only
      by_cases hlen : rowArray.length = 8
      · rw [if_pos hlen]; rfl
      · rw [if_neg hlen]; rfl

/-- C1: on the malformed input `""` (no space, no placement field),
`Board::from_fen` panics — the `unwrap` on `split_once` aborts — rather
than returning a `MalformedFen` failure result. -/
theorem from_fen_empty_input_panics : from_fen (strCodes "") = .panicked := by
  decide

/-- C2: on every input containing no space character, `Board::from_fen`
panics (the `unwrap` on `split_once` aborts) instead of returning a
`MalformedFen` failure result. -/
theorem from_fen_no_space_panics (pgn : List Nat) (h : 32 ∉ pgn) :
    from_fen pgn = .panicked := by
  unfold from_fen
  rw [splitOnce_eq_none_of_not_mem 32 pgn h]

/-- Witness for `from_fen_no_space_panics` at the concrete spaceless
input `"abc"`. -/
theorem from_fen_no_space_panics_witness :
    (32 : Nat) ∉ strCodes "abc" ∧ from_fen (strCodes "abc") = .panicked :=
  ⟨by decide, from_fen_no_space_panics (strCodes "abc") (by decide)⟩

/-- C3: on a placement field with only 7 rank descriptors,
`Board::from_fen` panics (the `unwrap` on the board `try_into` aborts)
instead of returning a `MalformedFen` failure result. -/
theorem from_fen_seven_ranks_panics :
    from_fen (strCodes "8/8/8/8/8/8/8 w") = .panicked := by
  decide

/-- C4: on a rank descriptor expanding to more or fewer than 8 squares
(`"9"` trips the digit `assert!`, `"pppppppppp"` trips the row
`try_into` `unwrap`), `Board::from_fen` panics instead of returning a
`MalformedFen` failure result. -/
theorem from_fen_bad_rank_length_panics :
    from_fen (strCodes "9 w") = .panicked ∧
    from_fen (strCodes "pppppppppp w") = .panicked := by
  constructor
  · decide
  · decide

/-- C5: on a digit of 0 (the `assert!` aborts) and on a digit run
overflowing the rank (`"81"`: no check fires at the digit, the row
`try_into` `unwrap` aborts later), `Board::from_fen` panics instead of
returning a `MalformedFen` failure result. -/
theorem from_fen_bad_digit_panics :
    from_fen (strCodes "0 w") = .panicked ∧
    from_fen (strCodes "81/8/8/8/8/8/8/8 w") = .panicked := by
  constructor
  · decide
  · decide

/-- C6: `Board::new` succeeds and yields the standard initial position:
rank 0 is the second side's back rank, rank 1 its pawns, ranks 2-5
empty, rank 6 the first side's pawns, rank 7 its back rank, with
metadata `"w KQkq - 0 1"`. -/
theorem board_new_initial_position :
    Board.new = .ok
      ⟨[[some (.rook .black), some (.knight .black), some (.bishop .black),
         some (.queen .black), some (.king .black), some (.bishop .black),
         some (.knight .black), some (.rook .black)],
        List.replicate 8 (some (.pawn .black)),
        List.replicate 8 none,
        List.replicate 8 none,
        List.replicate 8 none,
        List.replicate 8 none,
        List.replicate 8 (some (.pawn .white)),
        [some (.rook .white), some (.knight .white), some (.bishop .white),
         some (.queen .white), some (.king .white), some (.bishop .white),
         some (.knight .white), some (.rook .white)]],
       strCodes "w KQkq - 0 1"⟩ := by
  decide

/-- C7: each of the twelve characters `PpRrNnBbQqKk` decodes to the
piece kind its letter denotes, with the white (first) side exactly for
the uppercase variants. -/
theorem fromChar_recognized_pieces :
    Piece.fromChar 80 = some (.pawn .white) ∧      -- 'P'
    Piece.fromChar 112 = some (.pawn .black) ∧     -- 'p'
    Piece.fromChar 82 = some (.rook .white) ∧      -- 'R'
    Piece.fromChar 114 = some (.rook .black) ∧     -- 'r'
    Piece.fromChar 78 = some (.knight .white) ∧    -- 'N'
    Piece.fromChar 110 = some (.knight .black) ∧   -- 'n'
    Piece.fromChar 66 = some (.bishop .white) ∧    -- 'B'
    Piece.fromChar 98 = some (.bishop .black) ∧    -- 'b'
    Piece.fromChar 81 = some (.queen .white) ∧     -- 'Q'
    Piece.fromChar 113 = some (.queen .black) ∧    -- 'q'
    Piece.fromChar 75 = some (.king .white) ∧      -- 'K'
    Piece.fromChar 107 = some (.king .black) := by -- 'k'
  decide

/-- C8: every character outside `PpRrNnBbQqKk` decodes to `none`. -/
theorem fromChar_unrecognized_none (c : Nat) (h : c ∉ pieceChars) :
    Piece.fromChar c = none := by
  have hchars : pieceChars = [80, 112, 82, 114, 78, 110, 66, 98, 81, 113, 75, 107] := by
    decide
  rw [hchars] at h
  simp only [List.mem_cons, List.not_mem_nil, not_or, or_false] at h
  obtain ⟨n1, n2, n3, n4, n5, n6, n7, n8, n9, n10, n11, n12⟩ := h
  simp only [Piece.fromChar, toAsciiLowercase, isAsciiUppercase]
  split_ifs <;> first | rfl | (exfalso; omega)

/-- Witness for `fromChar_unrecognized_none` at the concrete character
`'x'` (code 120). -/
theorem fromChar_unrecognized_none_witness :
    (120 : Nat) ∉ pieceChars ∧ Piece.fromChar 120 = none :=
  ⟨by decide, fromChar_unrecognized_none 120 (by decide)⟩

/-- C9 counterexample: scanning the lone unrecognized alphabetic
character `'x'` yields a rank sequence of length 1 (one empty square,
the pushed `Piece::from_char` result), not the length 0 the claim's
"contributes no square" would give — the rank length is affected. -/
theorem scanRow_unrecognized_alpha_counterexample :
    (scanRow (strCodes "x")).map List.length = some 1 ∧
    (scanRow (strCodes "")).map List.length = some 0 ∧
    scanRow (strCodes "x") = some [none] := by
  decide

/-- C9 amended: an alphabetic character the Piece Decoder does not
recognize is not skipped: the scan pushes the decoder's `none` result,
appending one empty square and growing the rank by one. -/
theorem scanRowStep_unrecognized_alpha_pushes_empty (acc : List Square) (c : Nat)
    (halpha : isAsciiAlphabetic c = true) (hnone : Piece.fromChar c = none) :
    scanRowStep acc c = some (acc ++ [none]) := by
  have hdig : isAsciiDigit c = false := by
    simp only [isAsciiAlphabetic, Bool.or_eq_true, Bool.and_eq_true,
      decide_eq_true_eq] at halpha
    simp only [isAsciiDigit, Bool.and_eq_true, decide_eq_true_eq,
      Bool.and_eq_false_iff, decide_eq_false_iff_not, not_le]
    omega
  simp only [scanRowStep, hdig, Bool.false_eq_true, if_false, halpha, if_true, hnone]

/-- Witness for `scanRowStep_unrecognized_alpha_pushes_empty` at the
empty accumulator and the concrete character `'x'` (code 120). -/
theorem scanRowStep_unrecognized_alpha_pushes_empty_witness :
    isAsciiAlphabetic 120 = true ∧ Piece.fromChar 120 = none ∧
    scanRowStep [] 120 = some [none] :=
  ⟨by decide, by decide,
    scanRowStep_unrecognized_alpha_pushes_empty [] 120 (by decide) (by decide)⟩

end EnPeasant
